import Mathlib

/-!
Verification of the worktree port-allocation scripts: a shallow embedding of
`scripts/worktree/allocate-ports.py`, `scripts/worktree/deallocate-ports.py`
and `scripts/worktree/list.py`, together with theorems about the registry
invariants, the port search, reconciliation and deallocation.

Modelling conventions:
* The allocation registry (`port-allocations.json`, a JSON object whose keys
  are allocation-key strings and whose values are arrays of integer ports) is
  an association list `Registry := List (String × List Nat)`; Python dicts
  preserve insertion order, `del` keeps the order of the rest, and assignment
  to a fresh key appends, which the list operations below mirror.
* The filesystem under the worktrees root is a value of `FS`: the set of
  existing directories, the set of directories holding a `state.json` file,
  and the parseable `state.json` contents.  A `state.json` that exists but
  cannot be parsed is a member of `stateFiles` with no entry in `states`:
  `list.py` skips such files in its scan (`except ... continue`), which the
  scan over `states` below reproduces.
* The port probe `is_port_free` binds a real socket; it is modelled as an
  oracle parameter `free : Nat → Bool` passed to the search.
* Paths are lists of components relative to the worktrees root.  `pathlib`
  splits a string argument of `/` on slashes and drops empty components,
  which `pathOfKey` reproduces; keys are taken to be relative paths (no
  leading slash), as produced by the callers.
-/

namespace Worktree

/-- A parsed worktree state record (`state.json`).  Of its fields (name,
projectName, ports, worktreeDir, originalDir, branch, createdAt,
allocationKey) only the optional `allocationKey` influences the logic
modelled here: `list.py` compares `state.get("allocationKey")` against the
registry key. -/
structure StateRecord where
  allocationKey : Option String
deriving DecidableEq

/-- The filesystem under the worktrees root `~/.claude/worktrees`. -/
structure FS where
  /-- Directories that exist, as component lists relative to the root. -/
  dirs : List (List String)
  /-- Directories whose `state.json` file exists (readable or not). -/
  stateFiles : List (List String)
  /-- Parseable `state.json` contents, by directory; order models the
      `rglob` enumeration order. -/
  states : List (List String × StateRecord)
deriving DecidableEq

/-- The persisted allocation registry, as an ordered association list. -/
abbrev Registry := List (String × List Nat)

/-- `PORT_RANGE_START = 50000` in `allocate-ports.py`. -/
def PORT_RANGE_START : Nat := 50000

/-- `PORT_RANGE_END = 60000` in `allocate-ports.py`. -/
def PORT_RANGE_END : Nat := 60000

/-- Split a character list on slashes (helper for `pathOfKey`). -/
def splitSlash : List Char → List Char → List String
  | [], acc => [String.mk acc.reverse]
  | c :: cs, acc =>
      if c = '/' then String.mk acc.reverse :: splitSlash cs [] else splitSlash cs (c :: acc)

/-- The path components `pathlib` produces for `WORKTREES_DIR / key`:
split on slashes, dropping empty components.  For a composite key,
`key.split("/", 1)` followed by `WORKTREES_DIR / project / name` yields the
same components, so `list.py`'s step 1 and step 2 address the same
directory. -/
def pathOfKey (key : String) : List String :=
  (splitSlash key.data []).filter (fun c => c ≠ "")

namespace AllocatePorts

/-- The keep-condition of `cleanup_stale_allocations` in `allocate-ports.py`:
a key is kept iff `WORKTREES_DIR / name` exists and contains `state.json`
(the code marks it stale `if not worktree_dir.exists() or not
state_file.exists()`). -/
def keeps (fs : FS) (name : String) : Bool :=
  fs.dirs.contains (pathOfKey name) && fs.stateFiles.contains (pathOfKey name)

/-- `cleanup_stale_allocations` of `allocate-ports.py`: drop the stale keys;
the Bool records whether `save_allocations` was called (`if stale:`). -/
def cleanup_stale_allocations (fs : FS) (allocations : Registry) : Registry × Bool :=
  (allocations.filter (fun e => keeps fs e.1),
   allocations.any (fun e => !(keeps fs e.1)))

/-- The reserved set built at the top of `find_free_ports`
(`allocated.update(ports)` over all values). -/
def allocatedPorts (existing_allocations : Registry) : List Nat :=
  (existing_allocations.map Prod.snd).flatten

/-- The body of the scan loop of `find_free_ports` at one start offset:
the candidate block `range(start, start + count)` is accepted iff no port of
it is already allocated and every port passes the probe. -/
def block_ok (free : Nat → Bool) (allocated : List Nat) (start count : Nat) : Bool :=
  let candidate_ports := List.range' start count
  !(candidate_ports.any (fun p => allocated.contains p)) && candidate_ports.all free

/-- `find_free_ports` of `allocate-ports.py`: scan the starts
`range(PORT_RANGE_START, PORT_RANGE_END - count)` in ascending order and
return the first accepted block; `none` models the `RuntimeError` raised
when the loop falls through.  Python's `range(PORT_RANGE_START,
PORT_RANGE_END - count)` has `PORT_RANGE_END - count - PORT_RANGE_START`
elements, written below with the subtrahends swapped (equal for every
`count`, as truncated subtraction of naturals). -/
def find_free_ports (free : Nat → Bool) (count : Nat)
    (existing_allocations : Registry) : Option (List Nat) :=
  let allocated := allocatedPorts existing_allocations
  match (List.range' PORT_RANGE_START (PORT_RANGE_END - PORT_RANGE_START - count)).find?
      (fun start => block_ok free allocated start count) with
  | some start => some (List.range' start count)
  | none => none

/-- The observable outcome of `main` in `allocate-ports.py`: the printed
JSON `{"ports": ..., "existing": ...}` on success, or the uncaught
`RuntimeError` of `find_free_ports`. -/
inductive AllocOutcome where
  | ok (ports : List Nat) (existing : Bool)
  | capacityError
deriving DecidableEq

/-- `main` of `allocate-ports.py` after argument parsing: load, reconcile,
return the existing entry if present, otherwise search, commit and save.
The second component is the resulting on-disk registry (reconciliation
already persisted its removals). -/
def allocate (fs : FS) (free : Nat → Bool) (count : Nat) (worktree_name : String)
    (allocations : Registry) : AllocOutcome × Registry :=
  let cleaned := (cleanup_stale_allocations fs allocations).1
  match cleaned.lookup worktree_name with
  | some ports => (AllocOutcome.ok ports true, cleaned)
  | none =>
      match find_free_ports free count cleaned with
      | some ports => (AllocOutcome.ok ports false, cleaned ++ [(worktree_name, ports)])
      | none => (AllocOutcome.capacityError, cleaned)

end AllocatePorts

namespace DeallocatePorts

/-- The observable behaviour of `main` in `deallocate-ports.py` after
argument parsing. -/
structure DeallocResult where
  /-- Whether the key was present (`worktree_name not in allocations`). -/
  found : Bool
  /-- The removed port list printed as `{"deallocated": true, "ports": ...}`. -/
  ports : Option (List Nat)
  /-- The registry content after the call. -/
  registry : Registry
  /-- Whether `save_allocations` was called. -/
  saved : Bool
  /-- The process exit code (`sys.exit(0)` on the not-found path, normal
      return otherwise). -/
  exitCode : Nat
deriving DecidableEq

/-- `main` of `deallocate-ports.py`: no reconciliation; remove the key if
present and save, otherwise report not-found and exit 0 without writing. -/
def deallocate (worktree_name : String) (allocations : Registry) : DeallocResult :=
  match allocations.lookup worktree_name with
  | none =>
      { found := false, ports := none, registry := allocations,
        saved := false, exitCode := 0 }
  | some ports =>
      { found := true, ports := some ports,
        registry := allocations.filter (fun e => !(e.1 == worktree_name)),
        saved := true, exitCode := 0 }

end DeallocatePorts

namespace ListScript

/-- `find_worktree_dir` of `list.py`: for a composite key check the
`project/name` subdirectory, then the directory named directly by the key
(the same component list, see `pathOfKey`), and only if neither exists scan
every parseable `state.json` for a matching `allocationKey`. -/
def find_worktree_dir (fs : FS) (allocation_key : String) : Option (List String) :=
  if allocation_key.data.contains '/' && fs.dirs.contains (pathOfKey allocation_key) then
    some (pathOfKey allocation_key)
  else if fs.dirs.contains (pathOfKey allocation_key) then
    some (pathOfKey allocation_key)
  else
    match fs.states.find? (fun e => e.2.allocationKey == some allocation_key) with
    | some e => some e.1
    | none => none

/-- The keep-condition of `cleanup_stale_allocations` in `list.py`: a key is
kept iff `find_worktree_dir` resolves it and the resolved directory holds a
`state.json` file. -/
def keeps (fs : FS) (key : String) : Bool :=
  match find_worktree_dir fs key with
  | none => false
  | some d => fs.stateFiles.contains d

/-- `cleanup_stale_allocations` of `list.py`: drop the stale keys; the Bool
records whether `save_allocations` was called. -/
def cleanup_stale_allocations (fs : FS) (allocations : Registry) : Registry × Bool :=
  (allocations.filter (fun e => keeps fs e.1),
   allocations.any (fun e => !(keeps fs e.1)))

end ListScript

/-- The candidate scan as the spec words it (spec 4.4 step 4 and claim C2):
blocks of `count` ports "starting at every offset for which the block fits
inside the configured range", i.e. every start with
`PORT_RANGE_START ≤ start` and `start + count ≤ PORT_RANGE_END`, in
ascending order.  Kept distinct from `AllocatePorts.find_free_ports` so the
two can be compared: the implementation stops one start earlier. -/
def find_free_ports_claim (free : Nat → Bool) (count : Nat)
    (existing_allocations : Registry) : Option (List Nat) :=
  let allocated := AllocatePorts.allocatedPorts existing_allocations
  match (List.range' PORT_RANGE_START (PORT_RANGE_END + 1 - PORT_RANGE_START - count)).find?
      (fun start => AllocatePorts.block_ok free allocated start count) with
  | some start => some (List.range' start count)
  | none => none

/-- One invocation of a registry-mutating operation, for stating the global
registry invariant over arbitrary operation sequences. -/
inductive Op where
  | alloc (fs : FS) (free : Nat → Bool) (count : Nat) (key : String)
  | dealloc (key : String)
  | reconcileAllocate (fs : FS)
  | reconcileList (fs : FS)

/-- The registry content after one operation. -/
def applyOp (reg : Registry) : Op → Registry
  | Op.alloc fs free count key => (AllocatePorts.allocate fs free count key reg).2
  | Op.dealloc key => (DeallocatePorts.deallocate key reg).registry
  | Op.reconcileAllocate fs => (AllocatePorts.cleanup_stale_allocations fs reg).1
  | Op.reconcileList fs => (ListScript.cleanup_stale_allocations fs reg).1

/-- The registry content after a sequence of operations. -/
def applyOps (reg : Registry) (ops : List Op) : Registry :=
  ops.foldl applyOp reg

/-- Two registry entries reserve no common port. -/
def PortsDisjoint (e₁ e₂ : String × List Nat) : Prop :=
  ∀ p, p ∈ e₁.2 → p ∉ e₂.2

/-- The registry invariant: the port sets of the entries are pairwise
disjoint. -/
def PairwiseDisjoint (reg : Registry) : Prop :=
  reg.Pairwise PortsDisjoint

/-- An empty filesystem, used as a concrete instantiation. -/
def fs0 : FS :=
  { dirs := [], stateFiles := [], states := [] }

/-- A filesystem with one worktree in a custom directory `custom`, whose
state record carries allocation key `w`; the conventional directory `w`
does not exist.  Such a worktree is resolvable only through the
state-record scan. -/
def fsCustom : FS :=
  { dirs := [[("custom" : String)]], stateFiles := [[("custom" : String)]],
    states := [([("custom" : String)], { allocationKey := some ("w") })] }

/-- A filesystem with one live worktree in the conventional directory `k`. -/
def fsK : FS :=
  { dirs := [[("k" : String)]], stateFiles := [[("k" : String)]], states := [] }

/-- A two-entry registry, used as a concrete instantiation. -/
def regAB : Registry :=
  [(("a" : String), [50000, 50001]), (("b" : String), [50002])]

end Worktree

namespace Worktree

/-- Looking a key up after filtering by a predicate on keys alone: the
entry survives iff its key satisfies the predicate. -/
theorem lookup_filter_keyPred (f : String → Bool) (l : Registry) (k : String) :
    (l.filter (fun e => f e.1)).lookup k = if f k then l.lookup k else none := by
  induction l with
  | nil => cases hf : f k <;> simp [List.filter]
  | cons a t ih =>
      obtain ⟨a1, a2⟩ := a
      by_cases hk : k = a1
      · subst hk
        cases hfa : f k
        · rw [List.filter_cons, if_neg (by simp [hfa]), ih, hfa]
          simp
        · rw [List.filter_cons, if_pos (by simp [hfa])]
          simp [List.lookup, hfa]
      · have hbeq : (k == a1) = false := by
          simpa using hk
        cases hfa : f a1
        · rw [List.filter_cons, if_neg (by simp [hfa]), ih]
          cases hf : f k <;> simp [List.lookup, hbeq, hf]
        · rw [List.filter_cons, if_pos (by simp [hfa])]
          rw [List.lookup_cons]
          cases hf : f k <;> simp [hbeq, hf, ih, List.lookup]

/-- `find?` over an ascending `range'` finds the least satisfying element:
everything in the scanned interval below the hit fails the predicate. -/
theorem find?_range'_first (p : Nat → Bool) :
    ∀ (n s x : Nat), (List.range' s n).find? p = some x →
      ∀ y, s ≤ y → y < x → p y = false := by
  intro n
  induction n with
  | zero => intro s x h; simp [List.range'] at h
  | succ m ih =>
      intro s x h y hsy hyx
      rw [List.range'_succ] at h
      by_cases hp : p s = true
      · rw [List.find?_cons_of_pos _ hp] at h
        have hsx : s = x := Option.some.inj h
        exfalso
        omega
      · rw [List.find?_cons_of_neg _ hp] at h
        have hp' : p s = false := by simpa using hp
        rcases Nat.eq_or_lt_of_le hsy with h1 | h1
        · subst h1
          exact hp'
        · exact ih (s + 1) x h y h1 hyx

/-- `find?` over an ascending `range'` returns `s` when `s` is in the
interval, satisfies the predicate, and everything below it fails. -/
theorem find?_range'_eq_some (p : Nat → Bool) :
    ∀ (n a s : Nat), a ≤ s → s < a + n → p s = true →
      (∀ y, a ≤ y → y < s → p y = false) →
      (List.range' a n).find? p = some s := by
  intro n
  induction n with
  | zero =>
      intro a s h1 h2 _ _
      exfalso
      omega
  | succ m ih =>
      intro a s h1 h2 hs hbelow
      rw [List.range'_succ]
      rcases Nat.eq_or_lt_of_le h1 with rfl | hlt
      · exact List.find?_cons_of_pos _ hs
      · have hpa : p a = false := hbelow a (Nat.le_refl a) hlt
        rw [List.find?_cons_of_neg _ (by simp [hpa])]
        exact ih (a + 1) s hlt (by omega) hs (fun y hy hys => hbelow y (by omega) hys)

end Worktree

namespace Worktree

/-- Membership in the reserved set: a port is reserved iff some entry of the
registry holds it. -/
theorem mem_allocatedPorts (reg : Registry) (p : Nat) :
    p ∈ AllocatePorts.allocatedPorts reg ↔ ∃ e ∈ reg, p ∈ e.2 := by
  simp only [AllocatePorts.allocatedPorts, List.mem_flatten, List.mem_map]
  constructor
  · rintro ⟨l, ⟨e, he, rfl⟩, hp⟩
    exact ⟨e, he, hp⟩
  · rintro ⟨e, he, hp⟩
    exact ⟨e.2, ⟨e, he, rfl⟩, hp⟩

/-- An accepted candidate block is disjoint from the reserved set. -/
theorem block_ok_not_allocated (free : Nat → Bool) (allocated : List Nat)
    (start count : Nat)
    (h : AllocatePorts.block_ok free allocated start count = true) :
    ∀ p ∈ List.range' start count, p ∉ allocated := by
  intro p hp hmem
  simp only [AllocatePorts.block_ok, Bool.and_eq_true, Bool.not_eq_true',
    List.any_eq_false] at h
  exact absurd (by simpa using hmem) (by simpa using h.1 p hp)

/-- Soundness of the implemented scan: a returned block is a contiguous
block whose start lies in `[PORT_RANGE_START, PORT_RANGE_END - count)`, it
is accepted, and every lower start in the range is rejected. -/
theorem find_free_ports_some (free : Nat → Bool) (count : Nat) (reg : Registry)
    (ports : List Nat)
    (h : AllocatePorts.find_free_ports free count reg = some ports) :
    ∃ start, ports = List.range' start count ∧
      PORT_RANGE_START ≤ start ∧ start + count < PORT_RANGE_END ∧
      AllocatePorts.block_ok free (AllocatePorts.allocatedPorts reg) start count = true ∧
      ∀ t, PORT_RANGE_START ≤ t → t < start →
        AllocatePorts.block_ok free (AllocatePorts.allocatedPorts reg) t count = false := by
  simp only [AllocatePorts.find_free_ports] at h
  cases hf : (List.range' PORT_RANGE_START (PORT_RANGE_END - PORT_RANGE_START - count)).find?
      (fun start => AllocatePorts.block_ok free (AllocatePorts.allocatedPorts reg) start count) with
  | none =>
      rw [hf] at h
      exact absurd h (by simp)
  | some s =>
      rw [hf] at h
      have hports : ports = List.range' s count := (Option.some.inj h).symm
      have hpred := List.find?_some hf
      have hmem := List.mem_of_find?_eq_some hf
      rw [List.mem_range'_1] at hmem
      refine ⟨s, hports, ?_, ?_, by simpa using hpred, ?_⟩
      · exact hmem.1
      · have := hmem.2
        simp only [PORT_RANGE_START, PORT_RANGE_END] at *
        omega
      · intro t h1 h2
        simpa using find?_range'_first _ _ _ _ hf t h1 h2

/-- Completeness direction of the capacity error: if every start whose block
lies inside the scanned range is rejected, the scan fails. -/
theorem find_free_ports_eq_none (free : Nat → Bool) (count : Nat) (reg : Registry)
    (h : ∀ s, PORT_RANGE_START ≤ s → s + count < PORT_RANGE_END →
      AllocatePorts.block_ok free (AllocatePorts.allocatedPorts reg) s count = false) :
    AllocatePorts.find_free_ports free count reg = none := by
  simp only [AllocatePorts.find_free_ports]
  have hf : (List.range' PORT_RANGE_START (PORT_RANGE_END - PORT_RANGE_START - count)).find?
      (fun start => AllocatePorts.block_ok free (AllocatePorts.allocatedPorts reg) start count)
      = none := by
    rw [List.find?_eq_none]
    intro x hx
    rw [List.mem_range'_1] at hx
    have hb : AllocatePorts.block_ok free (AllocatePorts.allocatedPorts reg) x count = false := by
      refine h x hx.1 ?_
      have := hx.2
      simp only [PORT_RANGE_START, PORT_RANGE_END] at *
      omega
    simp [hb]
  rw [hf]

/-- Soundness direction of the capacity error: a failed scan means every
start whose block lies inside the scanned range was rejected. -/
theorem find_free_ports_none (free : Nat → Bool) (count : Nat) (reg : Registry)
    (h : AllocatePorts.find_free_ports free count reg = none) :
    ∀ s, PORT_RANGE_START ≤ s → s + count < PORT_RANGE_END →
      AllocatePorts.block_ok free (AllocatePorts.allocatedPorts reg) s count = false := by
  simp only [AllocatePorts.find_free_ports] at h
  cases hf : (List.range' PORT_RANGE_START (PORT_RANGE_END - PORT_RANGE_START - count)).find?
      (fun start => AllocatePorts.block_ok free (AllocatePorts.allocatedPorts reg) start count) with
  | some s =>
      rw [hf] at h
      exact absurd h (by simp)
  | none =>
      rw [List.find?_eq_none] at hf
      intro s h1 h2
      have hmem : s ∈ List.range' PORT_RANGE_START (PORT_RANGE_END - PORT_RANGE_START - count) := by
        rw [List.mem_range'_1]
        refine ⟨h1, ?_⟩
        simp only [PORT_RANGE_START, PORT_RANGE_END] at *
        omega
      simpa using hf s hmem

/-- The scan worded as in the spec succeeds on a start in the inclusive
range when everything below it fails. -/
theorem find_free_ports_claim_eq_some (free : Nat → Bool) (count : Nat)
    (reg : Registry) (s : Nat)
    (h1 : PORT_RANGE_START ≤ s) (h2 : s + count ≤ PORT_RANGE_END)
    (hok : AllocatePorts.block_ok free (AllocatePorts.allocatedPorts reg) s count = true)
    (hfirst : ∀ t, PORT_RANGE_START ≤ t → t < s →
      AllocatePorts.block_ok free (AllocatePorts.allocatedPorts reg) t count = false) :
    find_free_ports_claim free count reg = some (List.range' s count) := by
  simp only [find_free_ports_claim]
  have hf : (List.range' PORT_RANGE_START (PORT_RANGE_END + 1 - PORT_RANGE_START - count)).find?
      (fun start => AllocatePorts.block_ok free (AllocatePorts.allocatedPorts reg) start count)
      = some s := by
    refine find?_range'_eq_some _ _ _ _ h1 ?_ hok ?_
    · simp only [PORT_RANGE_START, PORT_RANGE_END] at *
      omega
    · exact hfirst
  rw [hf]

end Worktree

namespace Worktree

/-- `allocate` on a key that survives reconciliation: the stored entry is
returned with `existing = true` and nothing further is written. -/
theorem allocate_hit (fs : FS) (free : Nat → Bool) (count : Nat) (key : String)
    (reg : Registry) (ports : List Nat)
    (h : ((AllocatePorts.cleanup_stale_allocations fs reg).1).lookup key = some ports) :
    AllocatePorts.allocate fs free count key reg =
      (AllocatePorts.AllocOutcome.ok ports true,
       (AllocatePorts.cleanup_stale_allocations fs reg).1) := by
  simp only [AllocatePorts.allocate]
  rw [h]

/-- `allocate` on a fresh key when the search succeeds: the block is
committed under the key at the end of the registry. -/
theorem allocate_fresh (fs : FS) (free : Nat → Bool) (count : Nat) (key : String)
    (reg : Registry) (ports : List Nat)
    (h1 : ((AllocatePorts.cleanup_stale_allocations fs reg).1).lookup key = none)
    (h2 : AllocatePorts.find_free_ports free count
      ((AllocatePorts.cleanup_stale_allocations fs reg).1) = some ports) :
    AllocatePorts.allocate fs free count key reg =
      (AllocatePorts.AllocOutcome.ok ports false,
       (AllocatePorts.cleanup_stale_allocations fs reg).1 ++ [(key, ports)]) := by
  simp only [AllocatePorts.allocate]
  rw [h1, h2]

/-- `allocate` on a fresh key when the search fails: the capacity error is
raised and the post-reconciliation registry is left as is. -/
theorem allocate_exhausted (fs : FS) (free : Nat → Bool) (count : Nat) (key : String)
    (reg : Registry)
    (h1 : ((AllocatePorts.cleanup_stale_allocations fs reg).1).lookup key = none)
    (h2 : AllocatePorts.find_free_ports free count
      ((AllocatePorts.cleanup_stale_allocations fs reg).1) = none) :
    AllocatePorts.allocate fs free count key reg =
      (AllocatePorts.AllocOutcome.capacityError,
       (AllocatePorts.cleanup_stale_allocations fs reg).1) := by
  simp only [AllocatePorts.allocate]
  rw [h1, h2]

/-- `deallocate` on an absent key. -/
theorem deallocate_not_found (key : String) (reg : Registry)
    (h : reg.lookup key = none) :
    DeallocatePorts.deallocate key reg =
      { found := false, ports := none, registry := reg, saved := false, exitCode := 0 } := by
  simp only [DeallocatePorts.deallocate]
  rw [h]

/-- `deallocate` on a present key. -/
theorem deallocate_found (key : String) (reg : Registry) (ports : List Nat)
    (h : reg.lookup key = some ports) :
    DeallocatePorts.deallocate key reg =
      { found := true, ports := some ports,
        registry := reg.filter (fun e => !(e.1 == key)),
        saved := true, exitCode := 0 } := by
  simp only [DeallocatePorts.deallocate]
  rw [h]

/-- A freshly found block shares no port with any reconciled entry. -/
theorem find_free_ports_disjoint (free : Nat → Bool) (count : Nat) (reg : Registry)
    (ports : List Nat)
    (h : AllocatePorts.find_free_ports free count reg = some ports) :
    ∀ e ∈ reg, ∀ p ∈ ports, p ∉ e.2 := by
  intro e he p hp hpe
  obtain ⟨start, hports, _, _, hok, _⟩ := find_free_ports_some free count reg ports h
  have hnot := block_ok_not_allocated free (AllocatePorts.allocatedPorts reg) start count hok p
    (by rw [hports] at hp; exact hp)
  exact hnot ((mem_allocatedPorts reg p).mpr ⟨e, he, hpe⟩)

/-- One operation preserves pairwise disjointness of the registry's port
sets. -/
theorem applyOp_preserves (reg : Registry) (op : Op)
    (h : PairwiseDisjoint reg) : PairwiseDisjoint (applyOp reg op) := by
  cases op with
  | reconcileAllocate fs =>
      exact List.Pairwise.sublist (List.filter_sublist _) h
  | reconcileList fs =>
      exact List.Pairwise.sublist (List.filter_sublist _) h
  | dealloc key =>
      show PairwiseDisjoint (DeallocatePorts.deallocate key reg).registry
      cases hl : reg.lookup key with
      | none =>
          rw [deallocate_not_found key reg hl]
          exact h
      | some ports =>
          rw [deallocate_found key reg ports hl]
          exact List.Pairwise.sublist (List.filter_sublist _) h
  | alloc fs free count key =>
      show PairwiseDisjoint (AllocatePorts.allocate fs free count key reg).2
      have hclean : PairwiseDisjoint ((AllocatePorts.cleanup_stale_allocations fs reg).1) :=
        List.Pairwise.sublist (List.filter_sublist _) h
      cases hl : ((AllocatePorts.cleanup_stale_allocations fs reg).1).lookup key with
      | some ports =>
          rw [allocate_hit fs free count key reg ports hl]
          exact hclean
      | none =>
          cases hff : AllocatePorts.find_free_ports free count
              ((AllocatePorts.cleanup_stale_allocations fs reg).1) with
          | none =>
              rw [allocate_exhausted fs free count key reg hl hff]
              exact hclean
          | some ports =>
              rw [allocate_fresh fs free count key reg ports hl hff]
              show List.Pairwise PortsDisjoint _
              rw [List.pairwise_append]
              refine ⟨hclean, by simp, ?_⟩
              intro a ha b hb
              have hbp : b = (key, ports) := by simpa using hb
              subst hbp
              intro p hpa hpb
              exact find_free_ports_disjoint free count _ ports hff a ha p hpb hpa

end Worktree

namespace Worktree

/-- Removing a key from the registry removes its entry. -/
theorem lookup_erase_self (key : String) (reg : Registry) :
    (reg.filter (fun e => !(e.1 == key))).lookup key = none := by
  have hc := lookup_filter_keyPred (fun a => !(a == key)) reg key
  simpa using hc

/-- Removing a key from the registry leaves every other key's entry
unchanged. -/
theorem lookup_erase_other (key k : String) (reg : Registry) (h : k ≠ key) :
    (reg.filter (fun e => !(e.1 == key))).lookup k = reg.lookup k := by
  have hc := lookup_filter_keyPred (fun a => !(a == key)) reg k
  have hbeq : (k == key) = false := by simpa using h
  rw [hc, hbeq]
  simp

/-- Frame property of a key-predicate filter together with the flag that
some entry was dropped. -/
theorem cleanup_frame_general (f : String → Bool) (reg : Registry) :
    (reg.filter (fun e => f e.1)).Sublist reg ∧
    (∀ k v, (reg.filter (fun e => f e.1)).lookup k = some v → reg.lookup k = some v) ∧
    ((reg.any fun e => !(f e.1)) = true ↔ reg.filter (fun e => f e.1) ≠ reg) := by
  refine ⟨List.filter_sublist _, ?_, ?_⟩
  · intro k v hv
    rw [lookup_filter_keyPred f reg k] at hv
    cases hf : f k with
    | false =>
        rw [hf] at hv
        simp at hv
    | true =>
        rw [hf] at hv
        simpa using hv
  · rw [List.any_eq_true]
    constructor
    · rintro ⟨e, he, hne⟩ heq
      have hkeep := (List.filter_eq_self.mp heq) e he
      rw [hkeep] at hne
      simp at hne
    · intro hne
      by_contra hall
      push_neg at hall
      refine hne (List.filter_eq_self.mpr ?_)
      intro a ha
      have := hall a ha
      simpa using this

end Worktree

namespace Worktree

/-- C1: starting from a registry whose entries have pairwise-disjoint port
sets, every sequence of allocate, deallocate and reconcile operations
leaves the port sets pairwise disjoint; and a block granted by allocate
with `existing = false` shares no port with any entry that survived
reconciliation. -/
theorem C1_no_overlap (reg : Registry) (h : PairwiseDisjoint reg) :
    (∀ ops : List Op, PairwiseDisjoint (applyOps reg ops)) ∧
    (∀ (fs : FS) (free : Nat → Bool) (count : Nat) (key : String)
        (ports : List Nat) (regOut : Registry),
      AllocatePorts.allocate fs free count key reg =
        (AllocatePorts.AllocOutcome.ok ports false, regOut) →
      ∀ e ∈ (AllocatePorts.cleanup_stale_allocations fs reg).1,
        ∀ p ∈ ports, p ∉ e.2) := by
  constructor
  · have main : ∀ (ops : List Op) (r : Registry), PairwiseDisjoint r →
        PairwiseDisjoint (applyOps r ops) := by
      intro ops
      induction ops with
      | nil => intro r hr; exact hr
      | cons op rest ih =>
          intro r hr
          exact ih (applyOp r op) (applyOp_preserves r op hr)
    intro ops
    exact main ops reg h
  · intro fs free count key ports regOut ha e he p hp
    cases hl : ((AllocatePorts.cleanup_stale_allocations fs reg).1).lookup key with
    | some q =>
        rw [allocate_hit fs free count key reg q hl] at ha
        simp at ha
    | none =>
        cases hff : AllocatePorts.find_free_ports free count
            ((AllocatePorts.cleanup_stale_allocations fs reg).1) with
        | none =>
            rw [allocate_exhausted fs free count key reg hl hff] at ha
            simp at ha
        | some ports' =>
            rw [allocate_fresh fs free count key reg ports' hl hff] at ha
            have hpp : ports' = ports := by
              have := congrArg Prod.fst ha
              simpa using this
            subst hpp
            exact find_free_ports_disjoint free count _ ports' hff e he p hp

/-- C1 witness: the invariant theorem applied to the empty registry and a
concrete operation sequence. -/
theorem C1_no_overlap_witness :
    PairwiseDisjoint [] ∧
    PairwiseDisjoint (applyOps []
      [Op.alloc fs0 (fun _ => true) 3 ("a"), Op.dealloc ("b")]) :=
  ⟨List.Pairwise.nil,
   (C1_no_overlap [] List.Pairwise.nil).1
     [Op.alloc fs0 (fun _ => true) 3 ("a"), Op.dealloc ("b")]⟩

/-- C2 counterexample: with `count = 10000`, a fully-free range and an
empty registry, the scan as the claim words it considers the block starting
at `PORT_RANGE_END - count = 50000` and returns it, but the implemented
scan (`range(PORT_RANGE_START, PORT_RANGE_END - count)`) has no candidate
start at all and fails. -/
theorem C2_counterexample :
    find_free_ports_claim (fun _ => true) 10000 [] =
      some (List.range' 50000 10000) ∧
    AllocatePorts.find_free_ports (fun _ => true) 10000 [] = none := by
  constructor
  · refine find_free_ports_claim_eq_some (fun _ => true) 10000 [] 50000 ?_ ?_ ?_ ?_
    · simp [PORT_RANGE_START]
    · simp [PORT_RANGE_END]
    · simp [AllocatePorts.block_ok, AllocatePorts.allocatedPorts]
    · intro t h1 h2
      exfalso
      simp only [PORT_RANGE_START] at h1
      omega
  · rfl

/-- C2 amended: the search considers candidate blocks at every start with
`PORT_RANGE_START ≤ start` and `start + count < PORT_RANGE_END` — one start
short of the claimed candidate set, so the block starting at
`PORT_RANGE_END - count` is never considered — in strictly ascending order,
returning the first block that neither overlaps the reserved set nor fails
the probe, and failing exactly when every such start is rejected. -/
theorem C2_search_order (free : Nat → Bool) (count : Nat) (reg : Registry) :
    (∀ ports, AllocatePorts.find_free_ports free count reg = some ports →
      ∃ start, ports = List.range' start count ∧
        PORT_RANGE_START ≤ start ∧ start + count < PORT_RANGE_END ∧
        AllocatePorts.block_ok free (AllocatePorts.allocatedPorts reg) start count = true ∧
        ∀ t, PORT_RANGE_START ≤ t → t < start →
          AllocatePorts.block_ok free (AllocatePorts.allocatedPorts reg) t count = false) ∧
    (AllocatePorts.find_free_ports free count reg = none ↔
      ∀ s, PORT_RANGE_START ≤ s → s + count < PORT_RANGE_END →
        AllocatePorts.block_ok free (AllocatePorts.allocatedPorts reg) s count = false) := by
  refine ⟨?_, ?_, ?_⟩
  · intro ports h
    exact find_free_ports_some free count reg ports h
  · exact find_free_ports_none free count reg
  · exact find_free_ports_eq_none free count reg

/-- C3 counterexample: the key `w` lives in the custom directory `custom`,
resolvable only through the state-record scan, which finds a live record —
so by the claimed rule the key is not stale — and `list.py`'s
reconciliation indeed keeps it, but `allocate-ports.py`'s reconciliation
removes it. -/
theorem C3_counterexample :
    ListScript.find_worktree_dir fsCustom ("w") = some [("custom" : String)] ∧
    fsCustom.stateFiles.contains [("custom" : String)] = true ∧
    (ListScript.cleanup_stale_allocations fsCustom [(("w" : String), [50000])]).1 =
      [(("w" : String), [50000])] ∧
    (AllocatePorts.cleanup_stale_allocations fsCustom [(("w" : String), [50000])]).1 = [] := by
  refine ⟨?_, ?_, ?_, ?_⟩ <;> decide

/-- C3 amended: the two reconciliations use different staleness rules.
`list.py` removes a key iff `find_worktree_dir` — the conventional
directory when it exists, the state-record scan only otherwise — yields no
directory whose `state.json` exists; `allocate-ports.py` removes a key iff
the directory named by the key is missing or lacks `state.json` (it never
scans state records).  In both, a surviving key keeps exactly its original
entry. -/
theorem C3_reconcile_membership (fs : FS) (reg : Registry) (key : String) :
    ((ListScript.cleanup_stale_allocations fs reg).1.lookup key =
      if ListScript.keeps fs key then reg.lookup key else none) ∧
    ((AllocatePorts.cleanup_stale_allocations fs reg).1.lookup key =
      if AllocatePorts.keeps fs key then reg.lookup key else none) :=
  ⟨lookup_filter_keyPred (ListScript.keeps fs) reg key,
   lookup_filter_keyPred (AllocatePorts.keeps fs) reg key⟩

end Worktree

namespace Worktree

/-- C4: allocating a key that already has an entry surviving reconciliation
returns exactly the previously granted port list with `existing = true`,
whatever count is requested, and writes nothing beyond reconciliation: the
resulting registry is exactly the reconciled one, with the key still bound
to its original entry. -/
theorem C4_idempotent_allocation (fs : FS) (free : Nat → Bool) (count : Nat)
    (key : String) (reg : Registry) (ports : List Nat)
    (h : ((AllocatePorts.cleanup_stale_allocations fs reg).1).lookup key = some ports) :
    AllocatePorts.allocate fs free count key reg =
      (AllocatePorts.AllocOutcome.ok ports true,
       (AllocatePorts.cleanup_stale_allocations fs reg).1) ∧
    reg.lookup key = some ports := by
  refine ⟨allocate_hit fs free count key reg ports h, ?_⟩
  have h' : (reg.filter (fun e => AllocatePorts.keeps fs e.1)).lookup key = some ports := h
  rw [lookup_filter_keyPred (AllocatePorts.keeps fs) reg key] at h'
  cases hk : AllocatePorts.keeps fs key with
  | false =>
      rw [hk] at h'
      simp at h'
  | true =>
      rw [hk] at h'
      simpa using h'

/-- C4 witness: a second allocation for the live key `k`, with a different
count, returns the first-granted block unchanged. -/
theorem C4_idempotent_allocation_witness :
    AllocatePorts.allocate fsK (fun _ => true) 7 ("k")
        [(("k" : String), [50010, 50011])] =
      (AllocatePorts.AllocOutcome.ok [50010, 50011] true,
       (AllocatePorts.cleanup_stale_allocations fsK
         [(("k" : String), [50010, 50011])]).1) ∧
    List.lookup ("k" : String) [(("k" : String), [50010, 50011])] =
      some [50010, 50011] :=
  C4_idempotent_allocation fsK (fun _ => true) 7 ("k")
    [(("k" : String), [50010, 50011])] [50010, 50011] (by decide)

/-- C5: when the key is fresh after reconciliation and every contiguous
block of the requested count inside the configured range either overlaps
the reserved set or fails the probe, allocate yields the distinct capacity
error and the registry equals its post-reconciliation content. -/
theorem C5_capacity_error (fs : FS) (free : Nat → Bool) (count : Nat)
    (key : String) (reg : Registry)
    (h1 : ((AllocatePorts.cleanup_stale_allocations fs reg).1).lookup key = none)
    (h2 : ∀ s, PORT_RANGE_START ≤ s → s + count ≤ PORT_RANGE_END →
      AllocatePorts.block_ok free
        (AllocatePorts.allocatedPorts ((AllocatePorts.cleanup_stale_allocations fs reg).1))
        s count = false) :
    AllocatePorts.allocate fs free count key reg =
      (AllocatePorts.AllocOutcome.capacityError,
       (AllocatePorts.cleanup_stale_allocations fs reg).1) := by
  refine allocate_exhausted fs free count key reg h1 ?_
  exact find_free_ports_eq_none free count _ (fun s hs hsc => h2 s hs (by omega))

/-- C5 witness: a request for 10001 ports can never fit in the range, and
allocate reports the capacity error leaving the empty registry empty. -/
theorem C5_capacity_error_witness :
    AllocatePorts.allocate fs0 (fun _ => true) 10001 ("k") [] =
      (AllocatePorts.AllocOutcome.capacityError, []) :=
  C5_capacity_error fs0 (fun _ => true) 10001 ("k") [] rfl
    (fun s hs hsc => absurd hsc (by
      simp only [PORT_RANGE_START, PORT_RANGE_END] at hs ⊢
      omega))

/-- C6: deallocating a key absent from the registry reports not-found,
exits with code 0, and neither modifies nor rewrites the registry. -/
theorem C6_deallocate_unknown (key : String) (reg : Registry)
    (h : reg.lookup key = none) :
    DeallocatePorts.deallocate key reg =
      { found := false, ports := none, registry := reg,
        saved := false, exitCode := 0 } :=
  deallocate_not_found key reg h

/-- C6 witness: deallocating the unknown key `k`. -/
theorem C6_deallocate_unknown_witness :
    DeallocatePorts.deallocate ("k") [(("a" : String), [50000])] =
      { found := false, ports := none, registry := [(("a" : String), [50000])],
        saved := false, exitCode := 0 } :=
  C6_deallocate_unknown ("k") [(("a" : String), [50000])] (by decide)

/-- C7: deallocating a present key removes exactly that key's entry,
persists the registry, exits with code 0 and returns the removed port
list, while every other key's entry is unchanged. -/
theorem C7_deallocate_present (key : String) (reg : Registry) (ports : List Nat)
    (h : reg.lookup key = some ports) :
    (DeallocatePorts.deallocate key reg).found = true ∧
    (DeallocatePorts.deallocate key reg).ports = some ports ∧
    (DeallocatePorts.deallocate key reg).saved = true ∧
    (DeallocatePorts.deallocate key reg).exitCode = 0 ∧
    (DeallocatePorts.deallocate key reg).registry.lookup key = none ∧
    ∀ k, k ≠ key →
      (DeallocatePorts.deallocate key reg).registry.lookup k = reg.lookup k := by
  rw [deallocate_found key reg ports h]
  refine ⟨rfl, rfl, rfl, rfl, ?_, ?_⟩
  · exact lookup_erase_self key reg
  · intro k hk
    exact lookup_erase_other key k reg hk

/-- C7 witness: deallocating `a` from a two-entry registry. -/
theorem C7_deallocate_present_witness :
    (DeallocatePorts.deallocate ("a") regAB).found = true ∧
    (DeallocatePorts.deallocate ("a") regAB).ports = some [50000, 50001] ∧
    (DeallocatePorts.deallocate ("a") regAB).saved = true ∧
    (DeallocatePorts.deallocate ("a") regAB).exitCode = 0 ∧
    (DeallocatePorts.deallocate ("a") regAB).registry.lookup ("a") = none ∧
    ∀ k, k ≠ ("a" : String) →
      (DeallocatePorts.deallocate ("a") regAB).registry.lookup k =
        regAB.lookup k :=
  C7_deallocate_present ("a") regAB [50000, 50001] (by decide)

/-- C8: allocating five ports on an empty registry with a fully-free range
grants exactly `[50000, 50001, 50002, 50003, 50004]` with
`existing = false`. -/
theorem C8_determinism_empty :
    AllocatePorts.allocate fs0 (fun _ => true) 5 ("k") [] =
      (AllocatePorts.AllocOutcome.ok [50000, 50001, 50002, 50003, 50004] false,
       [(("k" : String), [50000, 50001, 50002, 50003, 50004])]) := rfl

end Worktree

namespace Worktree

/-- C9: reconciliation — in both scripts — never adds a key and never
rewrites a surviving entry: the result is a sublist of the input, every
surviving key maps to exactly its original port list, and the registry file
is written back exactly when at least one entry was removed. -/
theorem C9_reconcile_frame (fs : FS) (reg : Registry) :
    ((AllocatePorts.cleanup_stale_allocations fs reg).1.Sublist reg ∧
     (∀ k v, (AllocatePorts.cleanup_stale_allocations fs reg).1.lookup k = some v →
        reg.lookup k = some v) ∧
     ((AllocatePorts.cleanup_stale_allocations fs reg).2 = true ↔
        (AllocatePorts.cleanup_stale_allocations fs reg).1 ≠ reg)) ∧
    ((ListScript.cleanup_stale_allocations fs reg).1.Sublist reg ∧
     (∀ k v, (ListScript.cleanup_stale_allocations fs reg).1.lookup k = some v →
        reg.lookup k = some v) ∧
     ((ListScript.cleanup_stale_allocations fs reg).2 = true ↔
        (ListScript.cleanup_stale_allocations fs reg).1 ≠ reg)) :=
  ⟨cleanup_frame_general (AllocatePorts.keeps fs) reg,
   cleanup_frame_general (ListScript.keeps fs) reg⟩

/-- C10: allocating zero ports for a fresh key succeeds without consulting
the port probe at all, returns the empty block with `existing = false`, and
commits the key bound to the empty list at the end of the registry. -/
theorem C10_zero_count (fs : FS) (free : Nat → Bool) (key : String) (reg : Registry)
    (h : ((AllocatePorts.cleanup_stale_allocations fs reg).1).lookup key = none) :
    AllocatePorts.allocate fs free 0 key reg =
      (AllocatePorts.AllocOutcome.ok [] false,
       (AllocatePorts.cleanup_stale_allocations fs reg).1 ++ [(key, [])]) ∧
    ∀ g : Nat → Bool, AllocatePorts.allocate fs g 0 key reg =
      AllocatePorts.allocate fs free 0 key reg := by
  have hfind : ∀ g : Nat → Bool, AllocatePorts.find_free_ports g 0
      ((AllocatePorts.cleanup_stale_allocations fs reg).1) = some [] := by
    intro g
    have h0 : AllocatePorts.block_ok g
        (AllocatePorts.allocatedPorts ((AllocatePorts.cleanup_stale_allocations fs reg).1))
        PORT_RANGE_START 0 = true := rfl
    simp only [AllocatePorts.find_free_ports]
    have hf : (List.range' PORT_RANGE_START (PORT_RANGE_END - PORT_RANGE_START - 0)).find?
        (fun start => AllocatePorts.block_ok g
          (AllocatePorts.allocatedPorts ((AllocatePorts.cleanup_stale_allocations fs reg).1))
          start 0) = some PORT_RANGE_START := by
      refine find?_range'_eq_some _ _ _ _ (Nat.le_refl _) ?_ h0 ?_
      · simp [PORT_RANGE_START, PORT_RANGE_END]
      · intro y hy hys
        exfalso
        omega
    rw [hf]
    rfl
  have hmain : ∀ g : Nat → Bool, AllocatePorts.allocate fs g 0 key reg =
      (AllocatePorts.AllocOutcome.ok [] false,
       (AllocatePorts.cleanup_stale_allocations fs reg).1 ++ [(key, [])]) := by
    intro g
    exact allocate_fresh fs g 0 key reg [] h (hfind g)
  exact ⟨hmain free, fun g => (hmain g).trans (hmain free).symm⟩

/-- C10 witness: allocating zero ports on the empty registry with a probe
that reports every port busy still succeeds and commits the empty entry. -/
theorem C10_zero_count_witness :
    (AllocatePorts.allocate fs0 (fun _ => false) 0 ("k") [] =
      (AllocatePorts.AllocOutcome.ok [] false,
       (AllocatePorts.cleanup_stale_allocations fs0 []).1 ++ [(("k" : String), [])])) ∧
    ∀ g : Nat → Bool, AllocatePorts.allocate fs0 g 0 ("k") [] =
      AllocatePorts.allocate fs0 (fun _ => false) 0 ("k") [] :=
  C10_zero_count fs0 (fun _ => false) ("k") [] rfl

end Worktree
